import Mathlib

/-!
Verification of the meal-planner planning pipeline.

This file embeds, as executable Lean definitions, the parts of the source
that the properties below speak about:

* `meal_planner/utils/json_helpers.py` — `clean_markdown_code_block` and the
  shape of `parse_llm_json_output`;
* `meal_planner/tools/kassalapp.py` — the price-history analysis inlined in
  `search_products` (lines 126-169);
* the four stage executors (`deal_hunter.py`, `meal_strategist.py`,
  `bargain_scout.py`, `list_consolidator.py`) and the state record of
  `models/state.py`;
* `api/models.py` — `PlanResponse.from_state`.

Decoded JSON values are modelled by the inductive `Json` below; numbers are
rationals (the source works with Python ints/floats whose arithmetic here is
exact); dictionaries are association lists with string keys, looked up with
last-binding-wins semantics matching `json.loads` (a later duplicate key
overwrites an earlier one).  Code that can raise inside a `try` block is
modelled with `Except String`, the caught exception becoming the error value.
-/

/-- A decoded JSON value, as produced by `json.loads` in
`parse_llm_json_output`.  Object keys are strings, as in any decoded JSON. -/
inductive Json where
  | null : Json
  | bool : Bool → Json
  | num : ℚ → Json
  | str : String → Json
  | arr : List Json → Json
  | obj : List (String × Json) → Json

/-- Dictionary lookup with the last binding winning, matching the dictionary
`json.loads` builds (later duplicate keys overwrite earlier ones). -/
def jlookup : List (String × Json) → String → Option Json
  | [], _ => none
  | kv :: kvs, k =>
    match jlookup kvs k with
    | some v => some v
    | none => if kv.1 = k then some kv.2 else none

/-- Python `k in d` for a decoded JSON dictionary `d` and a string key. -/
def hasKey (kvs : List (String × Json)) (k : String) : Bool :=
  kvs.any (fun kv => kv.1 = k)

/-- Python `d[k] = v` on a decoded JSON dictionary: replace the binding when
the key is present, append it otherwise. -/
def setKey (kvs : List (String × Json)) (k : String) (v : Json) :
    List (String × Json) :=
  if hasKey kvs k then kvs.map (fun kv => if kv.1 = k then (k, v) else kv)
  else kvs ++ [(k, v)]

/-- Python truthiness (`bool(x)`) of a decoded JSON value. -/
def jsonTruthy : Json → Bool
  | Json.null => false
  | Json.bool b => b
  | Json.num q => decide (q ≠ 0)
  | Json.str s => decide (s ≠ "")
  | Json.arr l => !l.isEmpty
  | Json.obj kvs => !kvs.isEmpty

mutual
/-- Python `==` on decoded JSON values.  `True == 1` and `False == 0` hold
because Python booleans are integers.  Dictionaries are compared as ordered
association lists; Python compares them as unordered maps, a divergence that
only shows when both compared values are dictionaries with the same bindings
in different orders, which no stage below does. -/
def pyEq : Json → Json → Bool
  | Json.null, Json.null => true
  | Json.bool a, Json.bool b => a == b
  | Json.bool a, Json.num q => decide ((if a then (1 : ℚ) else 0) = q)
  | Json.num q, Json.bool a => decide (q = (if a then (1 : ℚ) else 0))
  | Json.num a, Json.num b => decide (a = b)
  | Json.str a, Json.str b => a == b
  | Json.arr a, Json.arr b => pyEqList a b
  | Json.obj a, Json.obj b => pyEqPairs a b
  | _, _ => false

/-- Elementwise Python `==` on lists. -/
def pyEqList : List Json → List Json → Bool
  | [], [] => true
  | a :: as, b :: bs => pyEq a b && pyEqList as bs
  | _, _ => false

/-- Pairwise Python `==` on association lists. -/
def pyEqPairs : List (String × Json) → List (String × Json) → Bool
  | [], [] => true
  | a :: as, b :: bs => (a.1 == b.1) && pyEq a.2 b.2 && pyEqPairs as bs
  | _, _ => false
end

/-- Runs `f` over `l` left to right, stopping at the first
error — the behaviour of a Python loop whose body may raise. -/
def exceptMapM (f : α → Except String β) : List α → Except String (List β)
  | [] => Except.ok []
  | a :: as =>
    match f a, exceptMapM f as with
    | Except.error e, _ => Except.error e
    | Except.ok b, Except.ok bs => Except.ok (b :: bs)
    | Except.ok _, Except.error e => Except.error e

/-! ## OutputSanitizer (`utils/json_helpers.py`) -/

/-- The whitespace characters Python `str.strip()` removes that can occur in
the texts at hand. -/
def isSpaceChar (c : Char) : Bool :=
  c = ' ' || c = '\t' || c = '\n' || c = '\r'

/-- Python `str.strip()` on a character list. -/
def pyStrip (cs : List Char) : List Char :=
  ((cs.dropWhile isSpaceChar).reverse.dropWhile isSpaceChar).reverse

/-- Python `str.startswith(p)` on character lists. -/
def startsWithL : List Char → List Char → Bool
  | [], _ => true
  | _ :: _, [] => false
  | p :: ps, c :: cs => p = c && startsWithL ps cs

/-- Python `str.endswith(p)` on character lists. -/
def endsWithL (p cs : List Char) : Bool :=
  startsWithL p.reverse cs.reverse

/-- The function clean_markdown_code_block (json_helpers.py lines 8-29): strip
whitespace, remove one leading ```` ```json ```` or ```` ``` ```` fence and
one trailing ```` ``` ```` fence, stripping again after each removal. -/
def clean_markdown_code_block (text : List Char) : List Char :=
  let c0 := pyStrip text
  let c1 :=
    if startsWithL "```json".data c0 then pyStrip (c0.drop 7)
    else if startsWithL "```".data c0 then pyStrip (c0.drop 3)
    else c0
  if endsWithL "```".data c1 then pyStrip (c1.take (c1.length - 3)) else c1

/-- The function parse_llm_json_output (json_helpers.py lines 32-50): clean the fences
then strictly decode.  The decoder (`json.loads`) is taken as a parameter;
every stage below receives the decode result as input. -/
def parse_llm_json_output (decode : List Char → Except String Json)
    (raw : List Char) : Except String Json :=
  decode (clean_markdown_code_block raw)

/-! ## PriceHistoryAnalyzer (`tools/kassalapp.py`, `search_products` 126-169) -/

/-- Rounding to an integer with ties to even, as Python `round`.
`Rat.floor` is the executable floor of a rational. -/
def roundHalfEven (q : ℚ) : ℤ :=
  let f := Rat.floor q
  let r := q - (f : ℚ)
  if r < 1 / 2 then f
  else if 1 / 2 < r then f + 1
  else if f % 2 = 0 then f else f + 1

/-- Python `round(q, 2)`. -/
def round2 (q : ℚ) : ℚ :=
  (roundHalfEven (q * 100) : ℚ) / 100

/-- Lexicographic `<=` on character lists by code point, which is how Python
compares the date strings in `sorted(..., key=..., reverse=True)`. -/
def charListLe : List Char → List Char → Bool
  | [], _ => true
  | _ :: _, [] => false
  | a :: as, b :: bs =>
    if a.val < b.val then true
    else if b.val < a.val then false
    else charListLe as bs

/-- Stable descending insertion by string key: the element being inserted
comes from earlier in the original list, so on ties it stays first — the
order `sorted(..., reverse=True)` produces. -/
def insertKeyedDesc (e : String × Json) :
    List (String × Json) → List (String × Json)
  | [] => [e]
  | f :: fs =>
    if charListLe f.1.data e.1.data then e :: f :: fs
    else f :: insertKeyedDesc e fs

/-- Stable descending sort by string key (insertion sort). -/
def sortKeyedDesc : List (String × Json) → List (String × Json)
  | [] => []
  | e :: es => insertKeyedDesc e (sortKeyedDesc es)

/-- The sort key (the entry date, defaulting to "") of a raw history entry.
`sorted` computes the key of every element before comparing, so a non-dict
entry always raises `AttributeError`; we also model a non-string date value
as raising (with two or more entries Python raises `TypeError` comparing a
string with it).  Either exception is caught by the surrounding
`except Exception`, which resets the processed history to empty. -/
def entrySortKey : Json → Except String String
  | Json.obj kvs =>
    match jlookup kvs "date" with
    | none => Except.ok ""
    | some (Json.str s) => Except.ok s
    | some _ => Except.error "TypeError: date values of mixed types"
  | _ => Except.error "AttributeError: entry has no attribute get"

/-- Python `float(x)` on an unsigned decimal literal: digits, or digits with
a single dot.  Exponents, `inf`/`nan` and underscores are modelled as
failing coercion (the entry is then silently dropped, as for any other
coercion failure). -/
def parseUnsignedDecimal (cs : List Char) : Option ℚ :=
  let intPart := cs.takeWhile Char.isDigit
  let rest := cs.dropWhile Char.isDigit
  let intVal : ℚ :=
    (intPart.foldl (fun acc c => acc * 10 + (c.toNat - 48)) 0 : ℕ)
  match rest with
  | [] => if intPart.isEmpty then none else some intVal
  | '.' :: frac =>
    if frac.all Char.isDigit && !(intPart.isEmpty && frac.isEmpty) then
      some (intVal +
        ((frac.foldl (fun acc c => acc * 10 + (c.toNat - 48)) 0 : ℕ) : ℚ) /
          (10 : ℚ) ^ frac.length)
    else none
  | _ => none

/-- Python `float(s)` on a string: strip whitespace, optional sign, then an
unsigned decimal literal. -/
def pyFloatOfString (s : String) : Option ℚ :=
  match pyStrip s.data with
  | '-' :: rest => (parseUnsignedDecimal rest).map (fun q => -q)
  | '+' :: rest => parseUnsignedDecimal rest
  | cs => parseUnsignedDecimal cs

/-- The `float(price_str)` coercion of a history entry price value
(kassalapp.py line 135).  Python `float` accepts numbers and booleans
(booleans are integers) and decimal strings; anything else raises
`ValueError`/`TypeError`, caught by the inner handler and dropped. -/
def coercePrice : Json → Option ℚ
  | Json.num q => some q
  | Json.bool b => some (if b then 1 else 0)
  | Json.str s => pyFloatOfString s
  | _ => none

/-- Reading the price value of an entry, the guard dropping a missing or
null price, and the float coercion: `none` means the entry contributes
nothing. -/
def priceOfEntry : Json → Option ℚ
  | Json.obj kvs =>
    match jlookup kvs "price" with
    | none => none
    | some Json.null => none
    | some v => coercePrice v
  | _ => none

/-- kassalapp.py lines 128-140: sort the raw history descending by date
string, keep the 10 most recent, coerce each price, silently dropping
entries that fail coercion; any exception from the sort resets the whole
processed history to empty. -/
def processedHistory (rawHistory : List Json) : List ℚ :=
  if rawHistory.isEmpty then []
  else
    match exceptMapM
        (fun e => (entrySortKey e).map (fun k => (k, e))) rawHistory with
    | Except.error _ => []
    | Except.ok keyed =>
      ((sortKeyedDesc keyed).take 10).filterMap (fun ke => priceOfEntry ke.2)

/-- kassalapp.py lines 142-169: the first processed price differing from the
current price is the previous price; report a drop when it exceeds the
current price and the rounded percentage is positive.  A zero previous
price raises `ZeroDivisionError`, caught and treated as no drop. -/
def analyzePriceHistory (rawHistory : List Json) (currentPrice : ℚ) :
    Option (ℚ × ℚ) :=
  let processed := processedHistory rawHistory
  if processed.isEmpty then none
  else
    match processed.find? (fun p => decide (p ≠ currentPrice)) with
    | none => none
    | some prev =>
      if currentPrice < prev then
        if prev = 0 then none
        else
          let pct := round2 ((prev - currentPrice) / prev * 100)
          if 0 < pct then some (prev, pct) else none
      else none

/-! ## PlanningState (`models/state.py`) and the stage executors -/

/-- The record MealPlannerState (models/state.py).  The TypedDict is not enforced at
runtime, so every decoded field is kept as a raw `Json` value exactly as the
stages store it; `Json.null` models Python `None`. -/
structure PlannerState where
  initial_query : String
  on_hand_ingredients : List String
  search_terms : List Json
  found_deals : List Json
  consolidated_deals : List Json
  chosen_store : Json
  meal_plan : List Json
  missing_ingredients : List Json
  cheapest_ingredients_info : List Json
  shopping_list : Json
  agent_outcome : Json

/-- The initial state built in `api/routes.py` (lines 35-47): all
collections empty, `chosen_store` and `agent_outcome` `None`. -/
def initialState (query : String) (onHand : List String) : PlannerState :=
  { initial_query := query
    on_hand_ingredients := onHand
    search_terms := []
    found_deals := []
    consolidated_deals := []
    chosen_store := Json.null
    meal_plan := []
    missing_ingredients := []
    cheapest_ingredients_info := []
    shopping_list := Json.obj []
    agent_outcome := Json.null }

/-- The `status` field of the last stage outcome, when the outcome is a
dictionary carrying one. -/
def outcomeStatus (s : PlannerState) : Option Json :=
  match s.agent_outcome with
  | Json.obj kvs => jlookup kvs "status"
  | _ => none

/-- Validation of ProductSearchAgent.run (deal_hunter.py lines 92-97):
`search_terms` and `found_deals` default to `[]` and must be lists; a
non-dict decoded value raises `AttributeError` on `.get`. -/
def productSearchValidate (parsed : Json) :
    Except String (List Json × List Json) :=
  match parsed with
  | Json.obj kvs =>
    match (jlookup kvs "search_terms").getD (Json.arr []),
        (jlookup kvs "found_deals").getD (Json.arr []) with
    | Json.arr terms, Json.arr deals => Except.ok (terms, deals)
    | _, _ => Except.error "Invalid data types in parsed output"
  | _ => Except.error "AttributeError: parsed output has no attribute get"

/-- The method ProductSearchAgent.run (deal_hunter.py lines 64-114), taking the
decode result of the collaborator reply as input. -/
def productSearchRun (state : PlannerState)
    (parseResult : Except String Json) : PlannerState :=
  match parseResult with
  | Except.error err =>
    { state with
      search_terms := []
      found_deals := []
      agent_outcome := Json.obj [("error", Json.str err)] }
  | Except.ok parsed =>
    match productSearchValidate parsed with
    | Except.error msg =>
      { state with
        search_terms := []
        found_deals := []
        agent_outcome :=
          Json.obj [("error", Json.str ("Agent 1 Error: " ++ msg))] }
    | Except.ok td =>
      { state with
        search_terms := td.1
        found_deals := td.2
        agent_outcome := parsed }

/-- The store field `deal.get("store")` used by the chosen-store filter; a
non-dict deal raises `AttributeError`, handled in `processMeal`. -/
def dealStore : Json → Json
  | Json.obj kvs => (jlookup kvs "store").getD Json.null
  | _ => Json.null

/-- Pairs a deal with its store field, as read by the chosen-store filter
(meal_strategist.py line 138); a non-dict deal raises `AttributeError`,
failing the whole stage. -/
def dealKey (d : Json) : Except String (Json × Json) :=
  match d with
  | Json.obj dkvs => Except.ok ((jlookup dkvs "store").getD Json.null, d)
  | _ => Except.error "AttributeError: deal has no attribute get"

/-- One iteration of the meal-plan loop (meal_strategist.py lines 133-143):
require `deals_used` to be a list and `on_hand_used` (defaulted to `[]`) to
be a list, keep only deals whose `store` equals the chosen store, and
default `notes` to "Serves 2".  A non-dict meal or deal raises
`AttributeError`, failing the whole stage. -/
def processMeal (chosenStore : Json) (meal : Json) : Except String Json :=
  match meal with
  | Json.obj mkvs =>
    match jlookup mkvs "deals_used",
        (jlookup mkvs "on_hand_used").getD (Json.arr []) with
    | some (Json.arr deals), Json.arr _ =>
      match exceptMapM dealKey deals with
      | Except.error e => Except.error e
      | Except.ok keyed =>
        let fdeals :=
          (keyed.filter (fun p => pyEq p.1 chosenStore)).map (fun p => p.2)
        let mkvs1 := setKey mkvs "deals_used" (Json.arr fdeals)
        let mkvs2 :=
          if hasKey mkvs1 "notes" then mkvs1
          else setKey mkvs1 "notes" (Json.str "Serves 2")
        Except.ok (Json.obj mkvs2)
    | _, _ =>
      Except.error "Meal plan item missing deals_used list or has invalid on_hand_used"
  | _ => Except.error "AttributeError: meal has no attribute get"

/-- The `try` body of `MealPlanningAgent.run` (meal_strategist.py lines
124-151): `chosen_store` must be truthy, `meal_plan` (default `[]`) and
`missing_ingredients` (default `[]`) must be lists, then every meal item is
validated and filtered by `processMeal`. -/
def mealPlanningValidate (parsed : Json) :
    Except String (Json × List Json × List Json) :=
  match parsed with
  | Json.obj kvs =>
    let chosenStore := (jlookup kvs "chosen_store").getD Json.null
    match (jlookup kvs "meal_plan").getD (Json.arr []),
        (jlookup kvs "missing_ingredients").getD (Json.arr []) with
    | Json.arr mealPlan, Json.arr missing =>
      if jsonTruthy chosenStore then
        match exceptMapM (processMeal chosenStore) mealPlan with
        | Except.error e => Except.error e
        | Except.ok plan => Except.ok (chosenStore, plan, missing)
      else
        Except.error "Parsed JSON missing required keys or has incorrect types."
    | _, _ =>
      Except.error "Parsed JSON missing required keys or has incorrect types."
  | _ => Except.error "AttributeError: parsed output has no attribute get"

/-- The method MealPlanningAgent.run (meal_strategist.py lines 84-159): skip when no
deals were found; record a parse failure as an error outcome; otherwise
validate, filter by the chosen store, and store the plan. -/
def mealPlanningRun (state : PlannerState)
    (parseResult : Except String Json) : PlannerState :=
  if state.found_deals.isEmpty then
    { state with
      agent_outcome :=
        Json.obj [("status", Json.str "skipped"),
                  ("reason", Json.str "No deals provided")] }
  else
    match parseResult with
    | Except.error err =>
      { state with
        agent_outcome :=
          Json.obj [("status", Json.str "error"),
                    ("reason", Json.str err)] }
    | Except.ok parsed =>
      match mealPlanningValidate parsed with
      | Except.error msg =>
        { state with
          agent_outcome :=
            Json.obj [("status", Json.str "error"),
                      ("reason", Json.str ("Agent 2 Error: " ++ msg))] }
      | Except.ok res =>
        { state with
          chosen_store := res.1
          meal_plan := res.2.1
          missing_ingredients := res.2.2
          agent_outcome :=
            Json.obj [("status", Json.str "success"),
                      ("chosen_store", res.1)] }

/-- The required key set of a sourced-ingredient item
(bargain_scout.py line 111). -/
def requiredSourcedKeys : List String :=
  ["ingredient_name", "product_id", "product_name", "store",
   "current_price", "unit"]

/-- Item-level validation of Agent 3 output (bargain_scout.py lines
110-116): keep dict items carrying every required key, drop the rest. -/
def isValidSourcedItem (item : Json) : Bool :=
  match item with
  | Json.obj kvs => requiredSourcedKeys.all (fun k => hasKey kvs k)
  | _ => false

/-- The method IngredientPricingAgent.run (bargain_scout.py lines 67-131): skip when
there are no missing ingredients; on parse failure record the error and the
raw output; otherwise the decoded value must be a list, whose invalid items
are dropped individually. -/
def ingredientPricingRun (state : PlannerState) (raw : String)
    (parseResult : Except String Json) : PlannerState :=
  if state.missing_ingredients.isEmpty then
    { state with
      agent_outcome :=
        Json.obj [("status", Json.str "skipped"),
                  ("reason", Json.str "No missing ingredients")]
      cheapest_ingredients_info := [] }
  else
    match parseResult with
    | Except.error err =>
      { state with
        cheapest_ingredients_info := []
        agent_outcome :=
          Json.obj [("error", Json.str err),
                    ("raw_output", Json.str raw)] }
    | Except.ok parsed =>
      match parsed with
      | Json.arr items =>
        let validated := items.filter isValidSourcedItem
        { state with
          cheapest_ingredients_info := validated
          agent_outcome := Json.arr validated }
      | _ =>
        { state with
          cheapest_ingredients_info := []
          agent_outcome :=
            Json.obj
              [("error",
                Json.str "Agent 3 Error: Parsed JSON is not a list as expected."),
               ("raw_output", Json.str raw)] }

/-- Python `chosen_store in parsed_output` on a decoded JSON dictionary:
key membership by Python `==` (the keys being strings). -/
def objContains (kvs : List (String × Json)) (cs : Json) : Bool :=
  kvs.any (fun kv => pyEq cs (Json.str kv.1))

/-- The effect of extending the merged item list with one dictionary value
(list_consolidator.py lines 135-136): a list extends by its elements, a
string by its one-character substrings, a dictionary by its keys; anything
else raises `TypeError`, failing the stage. -/
def valueItems : Json → Except String (List Json)
  | Json.arr l => Except.ok l
  | Json.str s => Except.ok (s.data.map (fun c => Json.str (String.singleton c)))
  | Json.obj kvs => Except.ok (kvs.map (fun kv => Json.str kv.1))
  | _ => Except.error "TypeError: argument to extend is not iterable"

/-- True when the lowered name contains "deal", deciding the default note
(list_consolidator.py line 145). -/
def isSubChars (needle : List Char) : List Char → Bool
  | [] => needle.isEmpty
  | c :: cs => startsWithL needle (c :: cs) || isSubChars needle cs

/-- One iteration of the field-defaulting loop (list_consolidator.py lines
141-145): default a missing `image_url` to `None` and a missing `notes` to
"Deal item" when the lowered `name` contains "deal", else "Staple item".
A non-dict item, or a non-string `name` on an item missing `notes`, raises
and fails the stage.  `Char.toLower` lowers ASCII letters only; Python
lowers full Unicode, immaterial for the names at hand. -/
def normalizeItem (item : Json) : Except String Json :=
  match item with
  | Json.obj ikvs =>
    let ikvs1 :=
      if hasKey ikvs "image_url" then ikvs else setKey ikvs "image_url" Json.null
    if hasKey ikvs1 "notes" then Except.ok (Json.obj ikvs1)
    else
      match (jlookup ikvs1 "name").getD (Json.str "") with
      | Json.str s =>
        let note :=
          if isSubChars "deal".data (s.data.map Char.toLower) then "Deal item"
          else "Staple item"
        Except.ok (Json.obj (setKey ikvs1 "notes" (Json.str note)))
      | _ => Except.error "AttributeError: name has no attribute lower"
  | _ => Except.error "TypeError: item does not support membership test"

/-- JSON object keys are strings, so a non-string `chosen_store` cannot be a
dictionary key in the model; the merge branch keys the rebuilt dictionary by
the empty string in that unreachable-from-the-spec corner (stage 2 normally
stores the store name decoded from JSON). -/
def storeKeyOf : Json → String
  | Json.str s => s
  | _ => ""

/-- The `try` body of `ShoppingListAgent.run` after decoding
(list_consolidator.py lines 122-146) on a decoded dictionary: when the
dictionary is non-empty and lacks the chosen store, merge every value list
under the chosen store; then default the missing fields of every item filed
under the chosen store. -/
def consolidateDict (chosenStore : Json) (kvs : List (String × Json)) :
    Except String (List (String × Json)) :=
  let step1 : Except String (List (String × Json)) :=
    if kvs.length > 0 && !objContains kvs chosenStore then
      match exceptMapM (fun kv => valueItems kv.2) kvs with
      | Except.error e => Except.error e
      | Except.ok lists =>
        Except.ok [(storeKeyOf chosenStore, Json.arr lists.flatten)]
    else Except.ok kvs
  match step1 with
  | Except.error e => Except.error e
  | Except.ok kvs1 =>
    match chosenStore with
    | Json.str s =>
      if objContains kvs1 (Json.str s) then
        match jlookup kvs1 s with
        | some (Json.arr items) =>
          match exceptMapM normalizeItem items with
          | Except.error e => Except.error e
          | Except.ok items2 => Except.ok (setKey kvs1 s (Json.arr items2))
        | some _ => Except.error "TypeError: object is not iterable"
        | none => Except.ok kvs1
      else Except.ok kvs1
    | _ => Except.ok kvs1

/-- The whole `try` body of `ShoppingListAgent.run` (list_consolidator.py
lines 122-146): a decoded non-dictionary is accepted as the empty
dictionary when the raw collaborator reply, stripped of whitespace, is
exactly "[]" or "null"; otherwise it raises `ValueError`. -/
def consolidate (chosenStore : Json) (rawOutput : String) (parsed : Json) :
    Except String (List (String × Json)) :=
  match parsed with
  | Json.obj kvs => consolidateDict chosenStore kvs
  | _ =>
    if pyStrip rawOutput.data = "[]".data ∨ pyStrip rawOutput.data = "null".data
    then consolidateDict chosenStore []
    else Except.error "Parsed JSON is not a dictionary as expected."

/-- The method ShoppingListAgent.run (list_consolidator.py lines 76-160): skip when
the chosen store is falsy or the meal plan empty; record a parse failure as
a skipped outcome naming the JSON parsing error; otherwise consolidate and
store the shopping list, resetting it to `{}` on a validation error. -/
def shoppingListRun (state : PlannerState) (raw : String)
    (parseResult : Except String Json) : PlannerState :=
  if !jsonTruthy state.chosen_store || state.meal_plan.isEmpty then
    { state with
      shopping_list := Json.obj []
      agent_outcome :=
        Json.obj [("status", Json.str "skipped"),
                  ("reason", Json.str "Missing chosen_store or meal_plan")] }
  else
    match parseResult with
    | Except.error err =>
      { state with
        shopping_list := Json.obj []
        agent_outcome :=
          Json.obj [("status", Json.str "skipped"),
                    ("reason", Json.str ("JSON parsing error: " ++ err))] }
    | Except.ok parsed =>
      match consolidate state.chosen_store raw parsed with
      | Except.error msg =>
        { state with
          shopping_list := Json.obj []
          agent_outcome :=
            Json.obj [("status", Json.str "error"),
                      ("message", Json.str ("Agent 4 Error: " ++ msg))] }
      | Except.ok finalKvs =>
        { state with
          shopping_list := Json.obj finalKvs
          agent_outcome :=
            Json.obj [("shopping_list", Json.obj finalKvs),
                      ("status", Json.str "success")] }

/-! ## PlanResponse (`api/models.py`) -/

/-- The concise API response (api/models.py lines 27-43). -/
structure PlanResponse where
  resp_chosen_store : Json
  resp_meal_plan : List Json
  resp_missing_ingredients : List Json
  resp_shopping_list : Json

/-- The classmethod PlanResponse.from_state (api/models.py lines 35-43):
`state["chosen_store"] or ""` maps every falsy chosen store — `None`
included — to the empty string. -/
def PlanResponse.from_state (s : PlannerState) : PlanResponse :=
  { resp_chosen_store :=
      if jsonTruthy s.chosen_store then s.chosen_store else Json.str ""
    resp_meal_plan := s.meal_plan
    resp_missing_ingredients := s.missing_ingredients
    resp_shopping_list := s.shopping_list }

/-! ## Concrete sample inputs used by the witnesses and counterexamples -/

/-- The length of a decoded JSON list, zero on any other value. -/
def jsonArrLen : Json → ℕ
  | Json.arr l => l.length
  | _ => 0

/-- A state in which stage 1 found one deal. -/
def sampleDealState : PlannerState :=
  { initialState "plan dinners" [] with found_deals := [Json.obj []] }

/-- A state ready for ListConsolidation: chosen store SPAR, a nonempty meal
plan, and a nonempty missing-ingredient list. -/
def sparState : PlannerState :=
  { initialState "plan dinners" [] with
    found_deals := [Json.obj []]
    chosen_store := Json.str "SPAR"
    meal_plan := [Json.obj []]
    missing_ingredients := [Json.str "salt"] }

/-- A fully-populated shopping list item. -/
def sampleItem (n : String) : Json :=
  Json.obj [("name", Json.str n), ("price", Json.num 10),
            ("currency", Json.str "NOK"), ("notes", Json.str "Deal item"),
            ("image_url", Json.null)]

/-- A decoded MealAssignment output with a non-string chosen store, zero
meals, and a non-string missing ingredient. -/
def parsedNonSeven : Json :=
  Json.obj [("chosen_store", Json.num 5), ("meal_plan", Json.arr []),
            ("missing_ingredients", Json.arr [Json.num 1])]

/-- A decoded MealAssignment output whose single meal lacks `deals_used`. -/
def parsedBadMeal : Json :=
  Json.obj [("chosen_store", Json.str "SPAR"),
            ("meal_plan", Json.arr [Json.obj [("meal_name", Json.str "X")]]),
            ("missing_ingredients", Json.arr [])]

/-- A deal at SPAR. -/
def dealSpar : Json := Json.obj [("store", Json.str "SPAR")]

/-- A deal at another store. -/
def dealOther : Json := Json.obj [("store", Json.str "OtherMart")]

/-- A decoded MealAssignment output whose meal uses one SPAR deal and one
OtherMart deal while the chosen store is SPAR. -/
def parsedMixedStores : Json :=
  Json.obj [("chosen_store", Json.str "SPAR"),
            ("meal_plan", Json.arr [Json.obj
              [("meal_name", Json.str "Day 1"),
               ("deals_used", Json.arr [dealSpar, dealOther]),
               ("on_hand_used", Json.arr [Json.str "salt"])]]),
            ("missing_ingredients", Json.arr [Json.str "milk"])]

/-- A decoded ListConsolidation output containing the chosen store SPAR next
to a second store key. -/
def parsedTwoStores : Json :=
  Json.obj [("SPAR", Json.arr [sampleItem "A"]),
            ("OtherMart", Json.arr [sampleItem "B"])]

/-- The bindings of a decoded ListConsolidation output without the chosen
store key. -/
def parsedMisfiledKvs : List (String × Json) :=
  [("KIWI", Json.arr [sampleItem "A"]),
   ("OtherMart", Json.arr [sampleItem "B", sampleItem "C"])]

/-- A decoded ListConsolidation output without the chosen store key. -/
def parsedMisfiled : Json := Json.obj parsedMisfiledKvs

/-- The number of top-level keys of a decoded JSON object, zero on any
other value. -/
def jsonObjSize : Json → ℕ
  | Json.obj kvs => kvs.length
  | _ => 0

/-- A raw collaborator reply carrying an empty JSON list inside a fence. -/
def fencedEmptyList : String := "```json\n[]\n```"

/-- A one-entry price history whose only price is the string "100". -/
def historyHundred : List Json :=
  [Json.obj [("date", Json.str "2024-01-01"), ("price", Json.str "100")]]

/-- A one-entry price history whose only price is 1. -/
def historyOne : List Json :=
  [Json.obj [("date", Json.str "2024-01-01"), ("price", Json.num 1)]]

/-- The single meal of `parsedMixedStores` after the stage filtered its
deals to the chosen store and defaulted `notes`. -/
def processedMixedMealKvs : List (String × Json) :=
  [("meal_name", Json.str "Day 1"), ("deals_used", Json.arr [dealSpar]),
   ("on_hand_used", Json.arr [Json.str "salt"]),
   ("notes", Json.str "Serves 2")]

/-! ## Helper lemmas -/

theorem startsWithL_append_left (p q s : List Char)
    (h : startsWithL (p ++ q) s = true) : startsWithL p s = true := by
  induction p generalizing s with
  | nil => rfl
  | cons a ps ih =>
    cases s with
    | nil => simp [startsWithL] at h
    | cons c cs =>
      simp only [List.cons_append, startsWithL, Bool.and_eq_true] at h ⊢
      exact ⟨h.1, ih cs h.2⟩

theorem exceptMapM_ok_length {α β : Type} (f : α → Except String β)
    (l : List α) (l' : List β) (h : exceptMapM f l = Except.ok l') :
    l'.length = l.length := by
  induction l generalizing l' with
  | nil => simp [exceptMapM] at h; simp [← h]
  | cons a as ih =>
    cases hfa : f a with
    | error e => simp [exceptMapM, hfa] at h
    | ok b =>
      cases hrec : exceptMapM f as with
      | error e => simp [exceptMapM, hfa, hrec] at h
      | ok bs =>
        simp only [exceptMapM, hfa, hrec, Except.ok.injEq] at h
        subst h
        simp [ih bs hrec]

theorem exceptMapM_ok_mem {α β : Type} (f : α → Except String β)
    (l : List α) (l' : List β) (h : exceptMapM f l = Except.ok l') :
    ∀ b ∈ l', ∃ a ∈ l, f a = Except.ok b := by
  induction l generalizing l' with
  | nil =>
    simp [exceptMapM] at h
    subst h; intro b hb; cases hb
  | cons a as ih =>
    cases hfa : f a with
    | error e => simp [exceptMapM, hfa] at h
    | ok b0 =>
      cases hrec : exceptMapM f as with
      | error e => simp [exceptMapM, hfa, hrec] at h
      | ok bs =>
        simp only [exceptMapM, hfa, hrec, Except.ok.injEq] at h
        subst h
        intro b hb
        cases hb with
        | head => exact ⟨a, List.mem_cons_self a as, hfa⟩
        | tail _ hb0 =>
          obtain ⟨a0, ha0, hfa0⟩ := ih bs hrec b hb0
          exact ⟨a0, List.mem_cons_of_mem a ha0, hfa0⟩

theorem exceptMapM_ok_of_mem {α β : Type} (f : α → Except String β)
    (l : List α) (l' : List β) (h : exceptMapM f l = Except.ok l') :
    ∀ a ∈ l, ∃ b, f a = Except.ok b := by
  induction l generalizing l' with
  | nil => intro a ha; cases ha
  | cons a0 as ih =>
    cases hfa : f a0 with
    | error e => simp [exceptMapM, hfa] at h
    | ok b0 =>
      cases hrec : exceptMapM f as with
      | error e => simp [exceptMapM, hfa, hrec] at h
      | ok bs =>
        intro a ha
        cases ha with
        | head => exact ⟨b0, hfa⟩
        | tail _ ha0 => exact ih bs hrec a ha0

theorem hasKey_false_jlookup (kvs : List (String × Json)) (k : String)
    (h : hasKey kvs k = false) : jlookup kvs k = none := by
  induction kvs with
  | nil => rfl
  | cons kv kvs ih =>
    simp only [hasKey, List.any_cons, Bool.or_eq_false_iff] at h
    simp only [jlookup, ih (by simp [hasKey, h.2])]
    simp only [decide_eq_false_iff_not] at h
    simp [h.1]

theorem jlookup_append_single (kvs : List (String × Json)) (k : String)
    (v : Json) : jlookup (kvs ++ [(k, v)]) k = some v := by
  induction kvs with
  | nil => simp [jlookup]
  | cons kv kvs ih => simp [jlookup, ih]

theorem hasKey_false_map_subst (kvs : List (String × Json)) (k : String)
    (v : Json) (h : hasKey kvs k = false) :
    kvs.map (fun kv => if kv.1 = k then (k, v) else kv) = kvs := by
  induction kvs with
  | nil => rfl
  | cons kv kvs ih =>
    simp only [hasKey, List.any_cons, Bool.or_eq_false_iff] at h
    simp only [List.map_cons, ih (by simp [hasKey, h.2])]
    simp only [decide_eq_false_iff_not] at h
    simp [h.1]

theorem jlookup_map_subst (kvs : List (String × Json)) (k : String)
    (v : Json) (h : hasKey kvs k = true) :
    jlookup (kvs.map (fun kv => if kv.1 = k then (k, v) else kv)) k =
      some v := by
  induction kvs with
  | nil => simp [hasKey] at h
  | cons kv kvs ih =>
    by_cases htl : hasKey kvs k = true
    · simp only [List.map_cons, jlookup, ih htl]
    · have htl' : hasKey kvs k = false := Bool.eq_false_iff.mpr htl
      have hd : kv.1 = k := by
        simp only [hasKey, List.any_cons, Bool.or_eq_true,
          decide_eq_true_eq] at h
        rcases h with h | h
        · exact h
        · exact absurd (show hasKey kvs k = true from h) htl
      simp only [List.map_cons, hd, if_pos rfl, jlookup,
        hasKey_false_map_subst kvs k v htl',
        hasKey_false_jlookup kvs k htl']
      simp

theorem jlookup_map_subst_ne (kvs : List (String × Json)) (k k' : String)
    (v : Json) (h : k' ≠ k) :
    jlookup (kvs.map (fun kv => if kv.1 = k then (k, v) else kv)) k' =
      jlookup kvs k' := by
  induction kvs with
  | nil => rfl
  | cons kv kvs ih =>
    simp only [List.map_cons, jlookup, ih]
    cases hx : jlookup kvs k' with
    | some w => rfl
    | none =>
      by_cases hk1 : kv.1 = k
      · simp [hk1, Ne.symm h]
      · simp [hk1]

theorem jlookup_append_single_ne (kvs : List (String × Json))
    (k k' : String) (v : Json) (h : k' ≠ k) :
    jlookup (kvs ++ [(k, v)]) k' = jlookup kvs k' := by
  induction kvs with
  | nil => simp [jlookup, Ne.symm h]
  | cons kv kvs ih => simp only [List.cons_append, jlookup, List.append_eq, ih]

theorem jlookup_setKey_self (kvs : List (String × Json)) (k : String)
    (v : Json) : jlookup (setKey kvs k v) k = some v := by
  unfold setKey
  by_cases h : hasKey kvs k = true
  · rw [if_pos h]; exact jlookup_map_subst kvs k v h
  · have h' : hasKey kvs k = false := Bool.eq_false_iff.mpr h
    rw [if_neg (by simp [h'])]
    exact jlookup_append_single kvs k v

theorem jlookup_setKey_ne (kvs : List (String × Json)) (k k' : String)
    (v : Json) (h : k' ≠ k) :
    jlookup (setKey kvs k v) k' = jlookup kvs k' := by
  unfold setKey
  by_cases hk : hasKey kvs k = true
  · rw [if_pos hk]; exact jlookup_map_subst_ne kvs k k' v h
  · rw [if_neg (by simp [Bool.eq_false_iff.mpr hk])]
    exact jlookup_append_single_ne kvs k k' v h

theorem ratFloor_eq_floor (q : ℚ) : Rat.floor q = ⌊q⌋ :=
  (Rat.floor_def' q).trans Rat.floor_def.symm

theorem roundHalfEven_le_int (q : ℚ) (z : ℤ) (h : q ≤ (z : ℚ)) :
    roundHalfEven q ≤ z := by
  have hf : ⌊q⌋ ≤ z := by
    calc ⌊q⌋ ≤ ⌊(z : ℚ)⌋ := Int.floor_le_floor h
    _ = z := Int.floor_intCast z
  have hfl : (⌊q⌋ : ℚ) ≤ q := Int.floor_le q
  simp only [roundHalfEven, ratFloor_eq_floor]
  rcases lt_or_eq_of_le hf with hlt | heq
  · split_ifs <;> omega
  · have hq : q = (z : ℚ) := by
      apply le_antisymm h
      rw [← heq]; exact hfl
    have hr : q - (⌊q⌋ : ℚ) = 0 := by
      rw [hq]; simp
    rw [hr, if_pos (by norm_num)]
    exact hf

theorem roundHalfEven_nonpos (q : ℚ) (h : q ≤ 0) : roundHalfEven q ≤ 0 :=
  roundHalfEven_le_int q 0 (by exact_mod_cast h)

theorem round2_le (q : ℚ) (b : ℤ) (h : q ≤ (b : ℚ)) : round2 q ≤ (b : ℚ) := by
  unfold round2
  rw [div_le_iff₀ (by norm_num : (0 : ℚ) < 100)]
  have : roundHalfEven (q * 100) ≤ b * 100 := by
    apply roundHalfEven_le_int
    push_cast
    nlinarith
  exact_mod_cast this

theorem round2_nonpos (q : ℚ) (h : q ≤ 0) : round2 q ≤ 0 := by
  have := round2_le q 0 (by exact_mod_cast h)
  simpa using this

theorem mealPlanningRun_success (state : PlannerState)
    (pr : Except String Json) (s' : PlannerState)
    (hrun : mealPlanningRun state pr = s')
    (hsucc : outcomeStatus s' = some (Json.str "success")) :
    ∃ parsed cs plan missing,
      pr = Except.ok parsed ∧
      mealPlanningValidate parsed = Except.ok (cs, plan, missing) ∧
      s'.chosen_store = cs ∧ s'.meal_plan = plan ∧
      s'.missing_ingredients = missing := by
  unfold mealPlanningRun at hrun
  split at hrun
  · subst hrun; simp [outcomeStatus, jlookup] at hsucc
  · split at hrun
    · subst hrun; simp [outcomeStatus, jlookup] at hsucc
    · rename_i parsed
      split at hrun
      · subst hrun; simp [outcomeStatus, jlookup] at hsucc
      · rename_i res hval
        subst hrun
        exact ⟨parsed, res.1, res.2.1, res.2.2, rfl, by rw [hval], rfl, rfl,
          rfl⟩

theorem dealKey_ok (d : Json) (p : Json × Json)
    (h : dealKey d = Except.ok p) : p.1 = dealStore p.2 ∧ p.2 = d := by
  unfold dealKey at h
  split at h
  · rename_i dkvs
    simp only [Except.ok.injEq] at h
    subst h
    exact ⟨rfl, rfl⟩
  · simp at h

theorem processMeal_ok_shape (c meal m' : Json)
    (h : processMeal c meal = Except.ok m') :
    ∃ mkvs ds keyed,
      meal = Json.obj mkvs ∧
      jlookup mkvs "deals_used" = some (Json.arr ds) ∧
      (∃ ohl, (jlookup mkvs "on_hand_used").getD (Json.arr []) =
        Json.arr ohl) ∧
      exceptMapM dealKey ds = Except.ok keyed ∧
      m' = Json.obj
        (let mkvs1 := setKey mkvs "deals_used"
          (Json.arr ((keyed.filter (fun p => pyEq p.1 c)).map (fun p => p.2)))
         if hasKey mkvs1 "notes" then mkvs1
         else setKey mkvs1 "notes" (Json.str "Serves 2")) := by
  unfold processMeal at h
  split at h
  · rename_i mkvs
    split at h
    · rename_i deals oh hdeals hoh
      split at h
      · simp at h
      · rename_i keyed hkeyed
        simp only [Except.ok.injEq] at h
        exact ⟨mkvs, deals, keyed, rfl, hdeals, ⟨oh, hoh⟩, hkeyed, h.symm⟩
    · simp at h
  · simp at h

theorem processMeal_ok_deals (c meal m' : Json)
    (h : processMeal c meal = Except.ok m') :
    ∃ mkvs2 fdeals, m' = Json.obj mkvs2 ∧
      jlookup mkvs2 "deals_used" = some (Json.arr fdeals) ∧
      ∀ d ∈ fdeals, pyEq (dealStore d) c = true := by
  unfold processMeal at h
  split at h
  · rename_i mkvs
    split at h
    · rename_i deals oh hdeals hoh
      split at h
      · simp at h
      · rename_i keyed hkeyed
        simp only [Except.ok.injEq] at h
        refine ⟨_, (keyed.filter (fun p => pyEq p.1 c)).map (fun p => p.2),
          h.symm, ?_, ?_⟩
        · by_cases hn :
            hasKey (setKey mkvs "deals_used"
              (Json.arr ((keyed.filter (fun p => pyEq p.1 c)).map
                (fun p => p.2)))) "notes" = true
          · rw [if_pos hn]
            exact jlookup_setKey_self mkvs "deals_used" _
          · rw [if_neg hn]
            rw [jlookup_setKey_ne _ "notes" "deals_used" _ (by decide)]
            exact jlookup_setKey_self mkvs "deals_used" _
        · intro d hd
          simp only [List.mem_map] at hd
          obtain ⟨p, hp, hpd⟩ := hd
          rw [List.mem_filter] at hp
          obtain ⟨hpk, hpc⟩ := hp
          obtain ⟨a, _, hfa⟩ :=
            exceptMapM_ok_mem dealKey deals keyed hkeyed p hpk
          obtain ⟨h1, _⟩ := dealKey_ok a p hfa
          rw [← hpd, ← h1]
          exact hpc
    · simp at h
  · simp at h

theorem mealPlanningValidate_ok (parsed cs : Json) (plan missing : List Json)
    (h : mealPlanningValidate parsed = Except.ok (cs, plan, missing)) :
    ∃ pkvs mp, parsed = Json.obj pkvs ∧
      cs = (jlookup pkvs "chosen_store").getD Json.null ∧
      jsonTruthy cs = true ∧
      (jlookup pkvs "meal_plan").getD (Json.arr []) = Json.arr mp ∧
      exceptMapM (processMeal cs) mp = Except.ok plan ∧
      (jlookup pkvs "missing_ingredients").getD (Json.arr []) =
        Json.arr missing := by
  unfold mealPlanningValidate at h
  split at h
  · rename_i pkvs
    split at h
    · rename_i mp mi hmp hmi
      simp only [] at h
      split at h
      · rename_i htruthy
        split at h
        · simp at h
        · rename_i plan0 hplan
          simp only [Except.ok.injEq, Prod.mk.injEq] at h
          obtain ⟨hcs, hplan0, hmi0⟩ := h
          subst hcs; subst hplan0; subst hmi0
          exact ⟨pkvs, mp, rfl, rfl, htruthy, hmp, hplan, hmi⟩
      · simp at h
    · simp at h
  · simp at h

/-! ## C1 -/

/-- C1: for every decoded MealAssignment output accepted by the stage
(success outcome), every entry of `deals_used` in every meal item of the
resulting meal plan has `store` equal to the freshly chosen `chosen_store`;
a deal whose store differs is removed from the item while the item itself
is retained — the returned plan has exactly as many meal items as the
decoded `meal_plan`. -/
theorem mealPlanning_deals_match_chosen_store (state : PlannerState)
    (pr : Except String Json) (s' : PlannerState)
    (hrun : mealPlanningRun state pr = s')
    (hsucc : outcomeStatus s' = some (Json.str "success")) :
    (∀ meal ∈ s'.meal_plan, ∀ mkvs, meal = Json.obj mkvs →
      ∀ ds, jlookup mkvs "deals_used" = some (Json.arr ds) →
        ∀ d ∈ ds, pyEq (dealStore d) s'.chosen_store = true) ∧
    (∀ pkvs mp, pr = Except.ok (Json.obj pkvs) →
      (jlookup pkvs "meal_plan").getD (Json.arr []) = Json.arr mp →
      s'.meal_plan.length = mp.length) := by
  obtain ⟨parsed, cs, plan, missing, hpr, hval, hcs, hplan, hmiss⟩ :=
    mealPlanningRun_success state pr s' hrun hsucc
  obtain ⟨pkvs, mp, hparsed, hcs0, htr, hmp, hmapm, hmi⟩ :=
    mealPlanningValidate_ok parsed cs plan missing hval
  constructor
  · intro meal hmeal mkvs hmk ds hds d hd
    rw [hplan] at hmeal
    obtain ⟨meal0, hmeal0, hpm⟩ :=
      exceptMapM_ok_mem (processMeal cs) mp plan hmapm meal hmeal
    obtain ⟨mkvs2, fdeals, hm', hlk, hall⟩ :=
      processMeal_ok_deals cs meal0 meal hpm
    rw [hmk] at hm'
    injection hm' with hkk
    rw [← hkk] at hlk
    rw [hds] at hlk
    injection hlk with h1
    injection h1 with h2
    rw [hcs]
    exact hall d (h2 ▸ hd)
  · intro pkvs' mp' hpr' hmp'
    rw [hpr] at hpr'
    injection hpr' with hx
    rw [hparsed] at hx
    injection hx with hy
    subst hy
    rw [hmp] at hmp'
    injection hmp' with hz
    subst hz
    rw [hplan, exceptMapM_ok_length (processMeal cs) mp plan hmapm]

/-- Witness for C1 at the scenario of the spec: chosen store SPAR, one meal
using one SPAR deal and one OtherMart deal; the stage accepts, and the
retained SPAR deal matches the stored chosen store. -/
theorem mealPlanning_deals_match_chosen_store_witness :
    outcomeStatus (mealPlanningRun sampleDealState
      (Except.ok parsedMixedStores)) = some (Json.str "success") ∧
    pyEq (dealStore dealSpar)
      (mealPlanningRun sampleDealState
        (Except.ok parsedMixedStores)).chosen_store = true := by
  refine ⟨rfl, ?_⟩
  have h := mealPlanning_deals_match_chosen_store sampleDealState
    (Except.ok parsedMixedStores) _ rfl rfl
  exact h.1 (Json.obj processedMixedMealKvs) (List.mem_cons_self _ _)
    processedMixedMealKvs rfl [dealSpar] rfl dealSpar (List.mem_cons_self _ _)

/-! ## C3 -/

theorem processMeal_none_deals (c meal : Json) (mkvs : List (String × Json))
    (hm : meal = Json.obj mkvs)
    (hlk : jlookup mkvs "deals_used" = none) (b : Json) :
    processMeal c meal ≠ Except.ok b := by
  subst hm
  intro hb
  simp only [processMeal] at hb
  rw [hlk] at hb
  split at hb
  · rename_i deals oh hdeals hoh
    simp at hdeals
  · simp at hb

/-- C3 (amended): the MealAssignment stage accepts a decoded value only if
it is an object whose `chosen_store` is truthy (any truthy value, not
necessarily a string), whose `meal_plan` (defaulting to `[]`) is a sequence
— of any length, the count of 7 is requested in the prompt but never
checked — each of whose items is an object carrying a `deals_used`
sequence, and whose `missing_ingredients` (defaulting to `[]`) is a
sequence with unchecked element types; and if any meal item lacks the
`deals_used` key, the whole stage result is rejected and the state marked
errored. -/
theorem mealPlanning_acceptance_shape (state : PlannerState) (parsed : Json)
    (s' : PlannerState)
    (hdeals : state.found_deals ≠ [])
    (hrun : mealPlanningRun state (Except.ok parsed) = s') :
    (outcomeStatus s' = some (Json.str "success") →
      ∃ pkvs mp, parsed = Json.obj pkvs ∧
        jsonTruthy ((jlookup pkvs "chosen_store").getD Json.null) = true ∧
        (jlookup pkvs "meal_plan").getD (Json.arr []) = Json.arr mp ∧
        (∃ mi, (jlookup pkvs "missing_ingredients").getD (Json.arr []) =
          Json.arr mi) ∧
        (∀ meal ∈ mp, ∃ mkvs ds, meal = Json.obj mkvs ∧
          jlookup mkvs "deals_used" = some (Json.arr ds))) ∧
    (∀ pkvs mp meal mkvs,
      parsed = Json.obj pkvs →
      (jlookup pkvs "meal_plan").getD (Json.arr []) = Json.arr mp →
      meal ∈ mp → meal = Json.obj mkvs →
      jlookup mkvs "deals_used" = none →
      outcomeStatus s' = some (Json.str "error")) := by
  constructor
  · intro hsucc
    obtain ⟨parsed0, cs, plan, missing, hpr, hval, hcs, hplan, hmiss⟩ :=
      mealPlanningRun_success state (Except.ok parsed) s' hrun hsucc
    injection hpr with hpr0
    subst hpr0
    obtain ⟨pkvs, mp, hparsed, hcs0, htr, hmp, hmapm, hmi⟩ :=
      mealPlanningValidate_ok parsed cs plan missing hval
    refine ⟨pkvs, mp, hparsed, by rw [← hcs0]; exact htr, hmp,
      ⟨missing, hmi⟩, ?_⟩
    intro meal hmeal
    obtain ⟨b, hb⟩ := exceptMapM_ok_of_mem (processMeal cs) mp plan hmapm
      meal hmeal
    obtain ⟨mkvs, ds, keyed, hm, hlk, _⟩ := processMeal_ok_shape cs meal b hb
    exact ⟨mkvs, ds, hm, hlk⟩
  · intro pkvs mp meal mkvs hparsed hmp hmeal hm hlk
    unfold mealPlanningRun at hrun
    rw [if_neg (by simpa [List.isEmpty_iff] using hdeals)] at hrun
    revert hrun
    split
    · intro hrun
      subst hrun
      rfl
    · rename_i res heq
      injection heq with heq0
      subst heq0
      split
      · intro hrun
        subst hrun
        rfl
      · rename_i trip hval
        intro hrun
        exfalso
        obtain ⟨pkvs0, mp0, hparsed0, hcs0, htr, hmp0, hmapm, hmi0⟩ :=
          mealPlanningValidate_ok parsed trip.1 trip.2.1 trip.2.2
            (by rw [hval])
        rw [hparsed] at hparsed0
        injection hparsed0 with hx
        subst hx
        rw [hmp] at hmp0
        injection hmp0 with hy
        subst hy
        obtain ⟨b, hb⟩ := exceptMapM_ok_of_mem (processMeal trip.1) mp
          trip.2.1 hmapm meal hmeal
        exact processMeal_none_deals trip.1 meal mkvs hm hlk b hb

/-- Counterexample to C3 as stated: a decoded object with a numeric (not
string) chosen store, an empty (not 7-item) meal plan, and a numeric entry
in `missing_ingredients` is accepted with a success outcome. -/
theorem mealPlanning_accepts_malformed_counterexample :
    outcomeStatus (mealPlanningRun sampleDealState
      (Except.ok parsedNonSeven)) = some (Json.str "success") ∧
    (mealPlanningRun sampleDealState
      (Except.ok parsedNonSeven)).meal_plan = [] ∧
    (mealPlanningRun sampleDealState
      (Except.ok parsedNonSeven)).chosen_store = Json.num 5 ∧
    (0 : ℕ) ≠ 7 :=
  ⟨rfl, rfl, rfl, by decide⟩

/-- Witness for C3 (amended): a meal item without `deals_used` makes the
whole stage error out. -/
theorem mealPlanning_acceptance_shape_witness :
    outcomeStatus (mealPlanningRun sampleDealState
      (Except.ok parsedBadMeal)) = some (Json.str "error") := by
  have h := mealPlanning_acceptance_shape sampleDealState parsedBadMeal _
    (List.cons_ne_nil _ _) rfl
  exact h.2
    [("chosen_store", Json.str "SPAR"),
     ("meal_plan", Json.arr [Json.obj [("meal_name", Json.str "X")]]),
     ("missing_ingredients", Json.arr [])]
    [Json.obj [("meal_name", Json.str "X")]]
    (Json.obj [("meal_name", Json.str "X")])
    [("meal_name", Json.str "X")]
    rfl rfl (List.mem_cons_self _ _) rfl rfl

/-! ## C2 -/

theorem shoppingListRun_success (state : PlannerState) (raw : String)
    (pr : Except String Json) (s' : PlannerState)
    (hrun : shoppingListRun state raw pr = s')
    (hsucc : outcomeStatus s' = some (Json.str "success")) :
    ∃ parsed finalKvs,
      pr = Except.ok parsed ∧
      consolidate state.chosen_store raw parsed = Except.ok finalKvs ∧
      s'.shopping_list = Json.obj finalKvs := by
  unfold shoppingListRun at hrun
  split at hrun
  · subst hrun; simp [outcomeStatus, jlookup] at hsucc
  · split at hrun
    · subst hrun; simp [outcomeStatus, jlookup] at hsucc
    · rename_i parsed
      split at hrun
      · subst hrun; simp [outcomeStatus, jlookup] at hsucc
      · rename_i finalKvs hcons
        subst hrun
        exact ⟨parsed, finalKvs, rfl, hcons, rfl⟩

theorem valueItems_flatten_length (kvs : List (String × Json))
    (lists : List (List Json))
    (hvals : ∀ kv ∈ kvs, ∃ l, kv.2 = Json.arr l)
    (h : exceptMapM (fun kv => valueItems kv.2) kvs = Except.ok lists) :
    lists.flatten.length = (kvs.map (fun kv => jsonArrLen kv.2)).sum := by
  induction kvs generalizing lists with
  | nil =>
    simp [exceptMapM] at h
    subst h
    simp
  | cons kv kvs ih =>
    obtain ⟨l, hl⟩ := hvals kv (List.mem_cons_self _ _)
    simp only [exceptMapM] at h
    rw [hl] at h
    cases hrec : exceptMapM (fun kv => valueItems kv.2) kvs with
    | error e => rw [hrec] at h; simp [valueItems] at h
    | ok rest =>
      rw [hrec] at h
      simp only [valueItems, Except.ok.injEq] at h
      subst h
      simp [jsonArrLen, hl,
        ih rest (fun kv hkv => hvals kv (List.mem_cons_of_mem _ hkv)) hrec]

/-- C2 (amended): when ListConsolidation succeeds on a decoded non-empty
mapping that does not contain the chosen store among its keys (all values
being lists), every value list is merged — no item discarded — under the
chosen store, which becomes the single top-level key.  When the decoded
mapping does contain the chosen store, the code leaves every key in place
(see the counterexample), and an empty decoded mapping stays `{}`. -/
theorem shoppingList_single_key_amended (state : PlannerState) (raw : String)
    (cs : String) (kvs : List (String × Json)) (s' : PlannerState)
    (hcs : state.chosen_store = Json.str cs)
    (hne : kvs ≠ [])
    (hnc : objContains kvs (Json.str cs) = false)
    (hvals : ∀ kv ∈ kvs, ∃ l, kv.2 = Json.arr l)
    (hrun : shoppingListRun state raw (Except.ok (Json.obj kvs)) = s')
    (hsucc : outcomeStatus s' = some (Json.str "success")) :
    ∃ items, s'.shopping_list = Json.obj [(cs, Json.arr items)] ∧
      items.length = (kvs.map (fun kv => jsonArrLen kv.2)).sum := by
  obtain ⟨parsed, finalKvs, hpr, hcons, hsl⟩ :=
    shoppingListRun_success state raw _ s' hrun hsucc
  injection hpr with hpr0
  rw [← hpr0, hcs] at hcons
  unfold consolidate consolidateDict at hcons
  have hC : (decide (kvs.length > 0) && !objContains kvs (Json.str cs))
      = true := by
    simp [hnc, List.length_pos, hne]
  simp only [hC, if_true] at hcons
  cases hml : exceptMapM (fun kv => valueItems kv.2) kvs with
  | error e => rw [hml] at hcons; simp at hcons
  | ok lists =>
    rw [hml] at hcons
    simp only [storeKeyOf] at hcons
    have hoc : objContains [(cs, Json.arr lists.flatten)] (Json.str cs)
        = true := by
      simp [objContains, pyEq]
    rw [hoc] at hcons
    simp only [if_true] at hcons
    have hjl : jlookup [(cs, Json.arr lists.flatten)] cs =
        some (Json.arr lists.flatten) := by
      simp [jlookup]
    rw [hjl] at hcons
    replace hcons : (match exceptMapM normalizeItem lists.flatten with
        | Except.error e => Except.error e
        | Except.ok items2 =>
          Except.ok (setKey [(cs, Json.arr lists.flatten)] cs
            (Json.arr items2))) = Except.ok finalKvs := hcons
    cases hnm : exceptMapM normalizeItem lists.flatten with
    | error e => rw [hnm] at hcons; simp at hcons
    | ok items =>
      rw [hnm] at hcons
      simp only [Except.ok.injEq] at hcons
      refine ⟨items, ?_, ?_⟩
      · rw [hsl, ← hcons]
        simp [setKey, hasKey]
      · rw [exceptMapM_ok_length normalizeItem lists.flatten items hnm]
        exact valueItems_flatten_length kvs lists hvals hml

/-- Counterexample to C2 as stated: when the decoded mapping contains the
chosen store (SPAR) next to a second store key, the stage stores it
unchanged — two top-level keys, not exactly one — with a success outcome. -/
theorem shoppingList_extra_keys_counterexample :
    (shoppingListRun sparState "x"
      (Except.ok parsedTwoStores)).shopping_list = parsedTwoStores ∧
    jsonObjSize (shoppingListRun sparState "x"
      (Except.ok parsedTwoStores)).shopping_list = 2 ∧
    outcomeStatus (shoppingListRun sparState "x"
      (Except.ok parsedTwoStores)) = some (Json.str "success") ∧
    (2 : ℕ) ≠ 1 :=
  ⟨rfl, rfl, rfl, by decide⟩

/-- Witness for C2 (amended): two misfiled store keys are merged into the
single chosen-store key SPAR with all three items kept. -/
theorem shoppingList_single_key_amended_witness :
    (shoppingListRun sparState "x"
      (Except.ok parsedMisfiled)).shopping_list =
      Json.obj [("SPAR",
        Json.arr [sampleItem "A", sampleItem "B", sampleItem "C"])] ∧
    (3 : ℕ) = (parsedMisfiledKvs.map (fun kv => jsonArrLen kv.2)).sum := by
  obtain ⟨items, h1, h2⟩ := shoppingList_single_key_amended sparState "x"
    "SPAR" parsedMisfiledKvs _ rfl (List.cons_ne_nil _ _) rfl
    (by
      intro kv hkv
      rcases List.mem_cons.mp hkv with h | h
      · exact ⟨_, by rw [h]⟩
      · rcases List.mem_cons.mp h with hx | hx
        · exact ⟨_, by rw [hx]⟩
        · cases hx)
    rfl rfl
  have h3 : Json.obj [("SPAR",
      Json.arr [sampleItem "A", sampleItem "B", sampleItem "C"])] =
      Json.obj [("SPAR", Json.arr items)] := h1
  injection h3 with h4
  injection h4 with h5 h6
  injection h5 with h7 h8
  injection h8 with h9
  constructor
  · rw [show parsedMisfiled = Json.obj parsedMisfiledKvs from rfl, h1, ← h9]
  · rfl

/-! ## C4 -/

/-- Counterexample to C4 as stated: a decode failure in the
ListConsolidation stage is recorded with status "skipped", not "error"
(list_consolidator.py line 119). -/
theorem consolidator_decode_failure_skipped_counterexample :
    outcomeStatus (shoppingListRun sparState "not json"
      (Except.error "JSON parse error: boom")) = some (Json.str "skipped") ∧
    ¬ outcomeStatus (shoppingListRun sparState "not json"
      (Except.error "JSON parse error: boom")) =
      some (Json.str "error") := by
  constructor
  · rfl
  · intro h
    rw [show outcomeStatus (shoppingListRun sparState "not json"
      (Except.error "JSON parse error: boom")) = some (Json.str "skipped")
      from rfl] at h
    injection h with h1
    injection h1 with h2
    exact absurd h2 (by decide)

/-- C4 (amended): on a decode failure, DealDiscovery records an outcome
carrying the parse error with `search_terms` and `found_deals` reset to
empty; MealAssignment records a status-error outcome, leaving its output
fields untouched (still their initial empty values in a real pipeline);
IngredientSourcing records an outcome carrying the error and the raw
output, with `cheapest_ingredients_info` reset to empty; ListConsolidation
records a status-skipped outcome whose reason names the JSON parsing
error, with `shopping_list` reset to `{}`.  In every case, every other
field of the state is left unchanged, so a decode failure in a later stage
does not lose the results written by earlier stages. -/
theorem decode_failure_stage_outcomes (state : PlannerState)
    (e raw : String) :
    (productSearchRun state (Except.error e) =
      { state with
        search_terms := []
        found_deals := []
        agent_outcome := Json.obj [("error", Json.str e)] }) ∧
    (state.found_deals ≠ [] →
      mealPlanningRun state (Except.error e) =
      { state with
        agent_outcome :=
          Json.obj [("status", Json.str "error"),
                    ("reason", Json.str e)] }) ∧
    (state.missing_ingredients ≠ [] →
      ingredientPricingRun state raw (Except.error e) =
      { state with
        cheapest_ingredients_info := []
        agent_outcome :=
          Json.obj [("error", Json.str e),
                    ("raw_output", Json.str raw)] }) ∧
    (jsonTruthy state.chosen_store = true → state.meal_plan ≠ [] →
      shoppingListRun state raw (Except.error e) =
      { state with
        shopping_list := Json.obj []
        agent_outcome :=
          Json.obj [("status", Json.str "skipped"),
                    ("reason", Json.str ("JSON parsing error: " ++ e))] }) := by
  refine ⟨rfl, ?_, ?_, ?_⟩
  · intro h
    unfold mealPlanningRun
    rw [if_neg (by simpa [List.isEmpty_iff] using h)]
  · intro h
    unfold ingredientPricingRun
    rw [if_neg (by simpa [List.isEmpty_iff] using h)]
  · intro h1 h2
    unfold shoppingListRun
    rw [if_neg (by simp [h1, List.isEmpty_iff, h2])]

/-- Witness for C4 (amended): a decode failure in each of the four stages,
on a state where no stage skips for missing input: the first and third
stages record an outcome without any status field, the second records
status error, the fourth records status skipped and an empty shopping
list. -/
theorem decode_failure_stage_outcomes_witness :
    outcomeStatus (productSearchRun sparState (Except.error "boom")) =
      none ∧
    outcomeStatus (mealPlanningRun sparState (Except.error "boom")) =
      some (Json.str "error") ∧
    outcomeStatus (ingredientPricingRun sparState "raw"
      (Except.error "boom")) = none ∧
    outcomeStatus (shoppingListRun sparState "raw"
      (Except.error "boom")) = some (Json.str "skipped") ∧
    (shoppingListRun sparState "raw"
      (Except.error "boom")).shopping_list = Json.obj [] := by
  have h := decode_failure_stage_outcomes sparState "boom" "raw"
  refine ⟨?_, ?_, ?_, ?_, ?_⟩
  · rw [h.1]; rfl
  · rw [h.2.1 (List.cons_ne_nil _ _)]; rfl
  · rw [h.2.2.1 (List.cons_ne_nil _ _)]; rfl
  · rw [h.2.2.2 rfl (List.cons_ne_nil _ _)]; rfl
  · rw [h.2.2.2 rfl (List.cons_ne_nil _ _)]

/-! ## C5, C6 -/

theorem roundHalfEven_intCast (n : ℤ) : roundHalfEven ((n : ℚ)) = n := by
  simp only [roundHalfEven, ratFloor_eq_floor]
  rw [Int.floor_intCast]
  norm_num

theorem round2_idem (q : ℚ) : round2 (round2 q) = round2 q := by
  unfold round2
  rw [div_mul_cancel₀ _ (by norm_num : (100 : ℚ) ≠ 0), roundHalfEven_intCast]

/-- C5 (amended): the price-history analysis is a total function on raw
JSON histories (every exception path yields "no drop" — never a raised
error), and whenever it reports a drop the deduced previous price is
strictly positive and strictly above the current price, the percentage is
strictly positive and is its own 2-decimal rounding; the percentage is at
most 100 whenever the current price is nonnegative — for a negative
current price it can exceed 100 (see the counterexample). -/
theorem priceDrop_bounds (hist : List Json) (current prev pct : ℚ)
    (h : analyzePriceHistory hist current = some (prev, pct)) :
    0 < prev ∧ current < prev ∧ 0 < pct ∧ pct = round2 pct ∧
    (0 ≤ current → pct ≤ 100) := by
  unfold analyzePriceHistory at h
  simp only [] at h
  split at h
  · simp at h
  · split at h
    · simp at h
    · rename_i prev0 hfind
      split at h
      · rename_i hlt
        split at h
        · simp at h
        · rename_i hne0
          split at h
          · rename_i hpos
            simp only [Option.some.injEq, Prod.mk.injEq] at h
            obtain ⟨hp, hq⟩ := h
            subst hp
            subst hq
            have hppos : 0 < prev0 := by
              by_contra hnp
              push_neg at hnp
              have hneg : prev0 < 0 := lt_of_le_of_ne hnp hne0
              have hnum : 0 < prev0 - current := by linarith
              have hraw : (prev0 - current) / prev0 * 100 < 0 := by
                have := div_neg_of_pos_of_neg hnum hneg
                nlinarith
              have := round2_nonpos ((prev0 - current) / prev0 * 100)
                (le_of_lt hraw)
              linarith
            refine ⟨hppos, hlt, hpos, (round2_idem _).symm, ?_⟩
            intro hcur
            have hratio : (prev0 - current) / prev0 ≤ 1 := by
              rw [div_le_one hppos]
              linarith
            have hraw : (prev0 - current) / prev0 * 100 ≤ ((100 : ℤ) : ℚ) :=
              by push_cast; nlinarith
            have := round2_le ((prev0 - current) / prev0 * 100) 100 hraw
            push_cast at this
            exact this
          · simp at h
      · simp at h

/-- Counterexample to C5 as stated: with a negative current price of -1 and
a single historical price of 1, the analysis reports a drop whose
percentage is 200, outside the claimed interval (0, 100]. -/
theorem priceDrop_negative_current_counterexample :
    analyzePriceHistory historyOne (-1) = some (1, 200) ∧
    ¬ ((200 : ℚ) ≤ 100) :=
  ⟨by decide!, by norm_num⟩

/-- Witness for C5 (amended): a drop from 100 to 50 yields a 50 percent
drop obeying every bound. -/
theorem priceDrop_bounds_witness :
    (0 : ℚ) < 100 ∧ (50 : ℚ) < 100 ∧ (0 : ℚ) < 50 ∧
    (50 : ℚ) = round2 50 ∧ ((0 : ℚ) ≤ 50 → (50 : ℚ) ≤ 100) :=
  priceDrop_bounds historyHundred 50 100 50 (by decide!)

/-- C6: on the price history of the spec scenario — prices "99.9" (dated
2024-01-10) and "120.0" (dated 2024-01-01), given unsorted with the newer
entry first already — with current price 99.9, the analysis deduces the
previous price 120 and the drop percentage 16.75: it sorts descending by
date string, keeps at most the 10 most recent entries, coerces the string
prices, scans for the first price differing from the current one and
rounds the percentage to 2 decimals. -/
theorem priceHistory_scenario_deduction :
    analyzePriceHistory
      [Json.obj [("date", Json.str "2024-01-10"),
                 ("price", Json.str "99.9")],
       Json.obj [("date", Json.str "2024-01-01"),
                 ("price", Json.str "120.0")]]
      (99.9 : ℚ) = some (120, 16.75) := by
  decide!

/-! ## C7 -/

/-- C7: when MealAssignment receives zero deals — on a state whose
chosen_store is still null and whose meal plan and missing-ingredient list
are still empty, as DealDiscovery leaves them — it skips, IngredientSourcing
and ListConsolidation skip in turn without erroring, and the final state
carries a null chosen store, an empty meal plan and an empty shopping
list. -/
theorem pipeline_zero_deals_skips (s : PlannerState)
    (h1 : s.found_deals = []) (h2 : s.chosen_store = Json.null)
    (h3 : s.meal_plan = []) (h4 : s.missing_ingredients = [])
    (r2 r3 r4 : Except String Json) (raw3 raw4 : String) :
    outcomeStatus (mealPlanningRun s r2) = some (Json.str "skipped") ∧
    outcomeStatus (ingredientPricingRun (mealPlanningRun s r2) raw3 r3) =
      some (Json.str "skipped") ∧
    outcomeStatus (shoppingListRun
      (ingredientPricingRun (mealPlanningRun s r2) raw3 r3) raw4 r4) =
      some (Json.str "skipped") ∧
    (shoppingListRun (ingredientPricingRun (mealPlanningRun s r2) raw3 r3)
      raw4 r4).chosen_store = Json.null ∧
    (shoppingListRun (ingredientPricingRun (mealPlanningRun s r2) raw3 r3)
      raw4 r4).meal_plan = [] ∧
    (shoppingListRun (ingredientPricingRun (mealPlanningRun s r2) raw3 r3)
      raw4 r4).shopping_list = Json.obj [] := by
  have e2 : mealPlanningRun s r2 =
      { s with
        agent_outcome := Json.obj [("status", Json.str "skipped"),
                                   ("reason", Json.str "No deals provided")] }
      := by
    unfold mealPlanningRun
    rw [if_pos (by simp [h1])]
  have e3 : ingredientPricingRun (mealPlanningRun s r2) raw3 r3 =
      { mealPlanningRun s r2 with
        agent_outcome :=
          Json.obj [("status", Json.str "skipped"),
                    ("reason", Json.str "No missing ingredients")]
        cheapest_ingredients_info := [] } := by
    unfold ingredientPricingRun
    rw [if_pos (by rw [e2]; simp [h4])]
  have e4 : shoppingListRun
      (ingredientPricingRun (mealPlanningRun s r2) raw3 r3) raw4 r4 =
      { ingredientPricingRun (mealPlanningRun s r2) raw3 r3 with
        shopping_list := Json.obj []
        agent_outcome :=
          Json.obj [("status", Json.str "skipped"),
                    ("reason", Json.str "Missing chosen_store or meal_plan")] }
      := by
    unfold shoppingListRun
    rw [if_pos (by rw [e3, e2]; simp [h2, jsonTruthy])]
  refine ⟨?_, ?_, ?_, ?_, ?_, ?_⟩
  · rw [e2]; rfl
  · rw [e3]; rfl
  · rw [e4]; rfl
  · rw [e4, e3, e2]; exact h2
  · rw [e4, e3, e2]; exact h3
  · rw [e4]

/-- Witness for C7 at the initial request state. -/
theorem pipeline_zero_deals_skips_witness :
    outcomeStatus (mealPlanningRun (initialState "plan dinners" [])
      (Except.error "no reply")) = some (Json.str "skipped") ∧
    outcomeStatus (ingredientPricingRun
      (mealPlanningRun (initialState "plan dinners" [])
        (Except.error "no reply")) "r3" (Except.error "no reply")) =
      some (Json.str "skipped") ∧
    outcomeStatus (shoppingListRun
      (ingredientPricingRun (mealPlanningRun (initialState "plan dinners" [])
        (Except.error "no reply")) "r3" (Except.error "no reply")) "r4"
      (Except.error "no reply")) = some (Json.str "skipped") ∧
    (shoppingListRun (ingredientPricingRun
      (mealPlanningRun (initialState "plan dinners" [])
        (Except.error "no reply")) "r3" (Except.error "no reply")) "r4"
      (Except.error "no reply")).chosen_store = Json.null ∧
    (shoppingListRun (ingredientPricingRun
      (mealPlanningRun (initialState "plan dinners" [])
        (Except.error "no reply")) "r3" (Except.error "no reply")) "r4"
      (Except.error "no reply")).meal_plan = [] ∧
    (shoppingListRun (ingredientPricingRun
      (mealPlanningRun (initialState "plan dinners" [])
        (Except.error "no reply")) "r3" (Except.error "no reply")) "r4"
      (Except.error "no reply")).shopping_list = Json.obj [] :=
  pipeline_zero_deals_skips (initialState "plan dinners" []) rfl rfl rfl rfl
    (Except.error "no reply") (Except.error "no reply")
    (Except.error "no reply") "r3" "r4"

/-! ## C8 -/

/-- Counterexample to the general reading of C8: a fenced reply whose
cleaned text is exactly "[]" decodes to an empty sequence, yet the stage
errors instead of normalizing to `{}` with success, because the
normalization inspects the raw reply text, not the decoded value. -/
theorem consolidator_fenced_empty_errors_counterexample :
    clean_markdown_code_block fencedEmptyList.data = "[]".data ∧
    outcomeStatus (shoppingListRun sparState fencedEmptyList
      (Except.ok (Json.arr []))) = some (Json.str "error") ∧
    (shoppingListRun sparState fencedEmptyList
      (Except.ok (Json.arr []))).shopping_list = Json.obj [] :=
  ⟨rfl, rfl, rfl⟩

/-- C8 (amended): when the ListConsolidation collaborator returns the bare
string "[]" (or "null"), which decodes to a non-object, the stage
normalizes it to the empty object and stores `{}` as the shopping list
with a success outcome; the normalization keys on the raw reply text
stripped of whitespace being exactly "[]" or "null", not on the decoded
value being an empty sequence. -/
theorem consolidator_raw_empty_list_normalized (state : PlannerState)
    (htruthy : jsonTruthy state.chosen_store = true)
    (hplan : state.meal_plan ≠ []) :
    shoppingListRun state "[]" (Except.ok (Json.arr [])) =
    { state with
      shopping_list := Json.obj []
      agent_outcome := Json.obj [("shopping_list", Json.obj []),
                                 ("status", Json.str "success")] } := by
  have hcons : consolidate state.chosen_store "[]" (Json.arr []) =
      Except.ok [] := by
    simp only [consolidate]
    rw [if_pos (Or.inl (by decide))]
    unfold consolidateDict
    cases state.chosen_store <;> rfl
  simp [shoppingListRun, htruthy, List.isEmpty_iff, hplan, hcons]

/-- Witness for C8 (amended) at a concrete ready state. -/
theorem consolidator_raw_empty_list_normalized_witness :
    shoppingListRun sparState "[]" (Except.ok (Json.arr [])) =
    { sparState with
      shopping_list := Json.obj []
      agent_outcome := Json.obj [("shopping_list", Json.obj []),
                                 ("status", Json.str "success")] } :=
  consolidator_raw_empty_list_normalized sparState rfl
    (List.cons_ne_nil _ _)

/-! ## C9 -/

/-- C9: on text that is already clean JSON — no surrounding whitespace, no
leading or trailing fence marker — the sanitizer is a no-op: the cleaned
text equals the input, cleaning is idempotent there, and parsing the
cleaned text with any decoder yields exactly what decoding the input
directly yields. -/
theorem sanitizer_noop_on_clean_json (s : List Char)
    (hstrip : pyStrip s = s)
    (hstart : startsWithL "```".data s = false)
    (hend : endsWithL "```".data s = false) :
    clean_markdown_code_block s = s ∧
    clean_markdown_code_block (clean_markdown_code_block s) =
      clean_markdown_code_block s ∧
    ∀ decode, parse_llm_json_output decode s = decode s := by
  have hjson : startsWithL "```json".data s = false := by
    cases hj : startsWithL "```json".data s with
    | false => rfl
    | true =>
      exfalso
      have happ := startsWithL_append_left "```".data "json".data s
      rw [show "```".data ++ "json".data = "```json".data by decide] at happ
      rw [hstart] at happ
      cases happ hj
  have hclean : clean_markdown_code_block s = s := by
    unfold clean_markdown_code_block
    simp [hstrip, hjson, hstart, hend]
  refine ⟨hclean, by rw [hclean, hclean], fun d => ?_⟩
  unfold parse_llm_json_output
  rw [hclean]

/-- Witness for C9 on a clean JSON array literal. -/
theorem sanitizer_noop_on_clean_json_witness :
    clean_markdown_code_block "[1, 2, 3]".data = "[1, 2, 3]".data ∧
    clean_markdown_code_block
      (clean_markdown_code_block "[1, 2, 3]".data) =
      clean_markdown_code_block "[1, 2, 3]".data :=
  ⟨(sanitizer_noop_on_clean_json "[1, 2, 3]".data (by decide) (by decide)
      (by decide)).1,
   (sanitizer_noop_on_clean_json "[1, 2, 3]".data (by decide) (by decide)
      (by decide)).2.1⟩

/-! ## C10 -/

/-- C10: the API response maps the chosen store of the state to itself when
it is a string (a falsy empty string also maps to the empty string) and to
the empty string when it is null; the response never carries a null
chosen store, whatever the final state is. -/
theorem response_chosen_store_never_null (s : PlannerState) :
    (∀ cs, s.chosen_store = Json.str cs →
      (PlanResponse.from_state s).resp_chosen_store = Json.str cs) ∧
    (s.chosen_store = Json.null →
      (PlanResponse.from_state s).resp_chosen_store = Json.str "") ∧
    (PlanResponse.from_state s).resp_chosen_store ≠ Json.null := by
  refine ⟨?_, ?_, ?_⟩
  · intro cs hcs
    simp only [PlanResponse.from_state]
    rw [hcs]
    by_cases h : cs = ""
    · subst h; rfl
    · rw [if_pos (by simp [jsonTruthy, h])]
  · intro h
    simp only [PlanResponse.from_state]
    rw [h]
    rfl
  · simp only [PlanResponse.from_state]
    by_cases h : jsonTruthy s.chosen_store = true
    · rw [if_pos h]
      intro hc
      rw [hc] at h
      exact absurd h (by decide)
    · rw [if_neg h]
      intro hc
      exact Json.noConfusion hc

/-- Witness for C10: a SPAR state keeps its chosen store, the initial state
with a null chosen store yields the empty string, never null. -/
theorem response_chosen_store_never_null_witness :
    (PlanResponse.from_state sparState).resp_chosen_store =
      Json.str "SPAR" ∧
    (PlanResponse.from_state
      (initialState "plan dinners" [])).resp_chosen_store = Json.str "" ∧
    (PlanResponse.from_state
      (initialState "plan dinners" [])).resp_chosen_store ≠ Json.null :=
  ⟨(response_chosen_store_never_null sparState).1 "SPAR" rfl,
   (response_chosen_store_never_null (initialState "plan dinners" [])).2.1
     rfl,
   (response_chosen_store_never_null (initialState "plan dinners" [])).2.2⟩
